import Mathlib

set_option linter.unusedVariables false

namespace Erwindb

/-!  Shallow embedding of the erwindb content-rendering and navigation core
(src/content.rs, src/html.rs, src/highlight.rs, src/app.rs, src/db.rs,
src/ui/styles.rs).  Terminal text is modelled by `Span`/`RLine` mirroring
ratatui's `Span`/`Line`; external crates (scraper, html2text, syntect,
chrono, rusqlite) are modelled from the spec where noted.  -/

/-- The ratatui colors used by the program (ratatui::style::Color). -/
inductive Color where
  | Black | White | Blue | Cyan | Yellow | Gray | DarkGray | Green | Magenta
  | Rgb (r g b : Nat)
deriving DecidableEq, Repr

/-- The ratatui style modifiers used by the program. -/
inductive Modifier where
  | BOLD | DIM | UNDERLINED
deriving DecidableEq, Repr

/-- ratatui::style::Style restricted to the fields the program sets. -/
structure Style where
  fg : Option Color := none
  bg : Option Color := none
  modifiers : List Modifier := []
deriving DecidableEq, Repr

/-- Style::default().fg(c) builder step. -/
def Style.setFg (s : Style) (c : Color) : Style := { s with fg := some c }

/-- Style::default().bg(c) builder step. -/
def Style.setBg (s : Style) (c : Color) : Style := { s with bg := some c }

/-- Style::add_modifier builder step (bitflag OR modelled as list append). -/
def Style.addMod (s : Style) (m : Modifier) : Style :=
  { s with modifiers := s.modifiers ++ [m] }

/-- ratatui::text::Span: a run of text with one style. -/
structure Span where
  content : String
  style : Style
deriving DecidableEq, Repr

/-- Span::raw. -/
def Span.raw (s : String) : Span := ⟨s, {}⟩

/-- Span::styled. -/
def Span.styled (s : String) (st : Style) : Span := ⟨s, st⟩

/-- ratatui::text::Line: an ordered list of spans. -/
structure RLine where
  spans : List Span
deriving DecidableEq, Repr

/-- Line::from(string): a single raw span holding the whole text. -/
def RLine.fromStr (s : String) : RLine := ⟨[Span.raw s]⟩

/-- Line::from(""): the empty line pushed pervasively by the composer. -/
def emptyRLine : RLine := RLine.fromStr ""

/-! ui/styles.rs -/

def title_style : Style := Style.addMod (Style.setFg {} .Yellow) .BOLD

def separator_style : Style := Style.setFg {} .DarkGray

def question_header_style : Style := Style.addMod (Style.setFg {} .Magenta) .BOLD

def answer_header_style : Style := Style.addMod (Style.setFg {} .Green) .BOLD

def erwin_header_style : Style :=
  Style.addMod (Style.setFg (Style.setBg {} .Yellow) .Black) .BOLD

def erwin_accent_style : Style := Style.setFg {} .Yellow

def erwin_text_style : Style := Style.setFg {} .White

/-- Modelled from the spec: `styles::comment_header_style` is called from
src/content.rs but its definition is not under src/ (src/ui/styles.rs lacks
it); the spec only asks for a distinct comment style, modelled here as the
bold gray of the neighbouring `comment_style`. -/
def comment_header_style : Style := Style.addMod (Style.setFg {} .Gray) .BOLD

/-- Modelled from the spec: `styles::comment_text_style` is called from
src/content.rs but its definition is not under src/; modelled as plain gray. -/
def comment_text_style : Style := Style.setFg {} .Gray

/-! Character-list utilities used to embed the string processing of the
source without relying on opaque library internals.  -/

/-- Split a character list at the first occurrence of `stop`, returning the
characters before it and the characters after it. -/
def splitAtChar (stop : Char) : List Char → Option (List Char × List Char)
  | [] => none
  | c :: rest =>
    if c = stop then some ([], rest)
    else match splitAtChar stop rest with
      | some (b, a) => some (c :: b, a)
      | none => none

/-- Split a character list at the first occurrence of the pattern `pat`,
returning the characters before it and the characters after it. -/
def splitAtSeq (pat : List Char) : List Char → Option (List Char × List Char)
  | [] => if pat.isEmpty then some ([], []) else none
  | c :: rest =>
    if pat.isPrefixOf (c :: rest) then some ([], (c :: rest).drop pat.length)
    else match splitAtSeq pat rest with
      | some (b, a) => some (c :: b, a)
      | none => none

/-- Replace every (non-overlapping, left-to-right) occurrence of `pat` by
`repl`, as Rust's `str::replace`.  `fuel` bounds the recursion; callers pass
the input length. -/
def replaceSeqAux (pat repl : List Char) : Nat → List Char → List Char
  | _, [] => []
  | 0, l => l
  | fuel + 1, c :: rest =>
    if pat ≠ [] ∧ pat.isPrefixOf (c :: rest) then
      repl ++ replaceSeqAux pat repl fuel ((c :: rest).drop pat.length)
    else c :: replaceSeqAux pat repl fuel rest

/-- Rust `str::replace` on strings. -/
def replaceStr (s pat repl : String) : String :=
  String.mk (replaceSeqAux pat.toList repl.toList s.toList.length s.toList)

/-- Split a character list on a separator character (keeping empty pieces),
as Rust's `str::split(c)`. -/
def splitOnChar (sep : Char) : List Char → List (List Char)
  | [] => [[]]
  | c :: rest =>
    let r := splitOnChar sep rest
    if c = sep then [] :: r
    else match r with
      | [] => [[c]]
      | h :: t => (c :: h) :: t

/-- Numeric value of a list of decimal digit characters. -/
def digitsToNat (l : List Char) : Nat :=
  l.foldl (fun acc c => acc * 10 + (c.toNat - 48)) 0

/-- Rust `str::parse::<usize>` on an all-digit string: fails on empty input,
on a non-digit, or on overflow past 2^64 - 1. -/
def parseUsize (s : String) : Option Nat :=
  let cs := s.toList
  if cs.isEmpty then none
  else if cs.all Char.isDigit then
    let n := digitsToNat cs
    if n ≤ 18446744073709551615 then some n else none
  else none

/-- Rust `str::parse::<i64>` on an all-digit (unsigned) string. -/
def parseI64 (s : String) : Option Int :=
  let cs := s.toList
  if cs.isEmpty then none
  else if cs.all Char.isDigit then
    let n := digitsToNat cs
    if n ≤ 9223372036854775807 then some (Int.ofNat n) else none
  else none

/-- Rust `str::lines`: split on newline, dropping one trailing empty piece
and a trailing carriage return on each line. -/
def rustLines (s : String) : List String :=
  let parts := splitOnChar '\n' s.toList
  let parts := if parts.getLast? = some [] then parts.dropLast else parts
  parts.map (fun l => String.mk (if l.getLast? = some '\r' then l.dropLast else l))

/-- Whether `p` is a prefix of `s` (Rust `str::starts_with`). -/
def strStarts (s p : String) : Bool := p.toList.isPrefixOf s.toList

/-- Word character for the `lang-(\w+)` regex: `[A-Za-z0-9_]`. -/
def wordChar (c : Char) : Bool := c.isAlphanum || c = '_'

/-! src/html.rs -/

/-- Leftmost match of the regex `lang-(\w+)`: find the first position where
the literal `lang-` is followed by at least one word character, and capture
the maximal word-character run. -/
def langCapture : List Char → Option String
  | [] => none
  | c :: rest =>
    if ['l', 'a', 'n', 'g', '-'].isPrefixOf (c :: rest) then
      let cap := ((c :: rest).drop 5).takeWhile wordChar
      if cap.isEmpty then langCapture rest else some (String.mk cap)
    else langCapture rest

/-- src/html.rs `extract_lang_from_class`: extract the language hint from a
pre tag's class attribute; the `lang-none` hint is filtered to `none`. -/
def extract_lang_from_class (cls : Option String) : Option String :=
  (cls.bind (fun c => langCapture c.toList)).filter (fun l => l ≠ "none")

/-- src/html.rs `Link`. -/
structure Link where
  url : String
  line_index : Nat
  link_num : Nat
  question_id : Option Int
deriving DecidableEq, Repr

/-- src/html.rs `ContentLine`. -/
structure ContentLine where
  line : RLine
deriving DecidableEq, Repr

/-- src/html.rs `ParsedContent`. -/
structure ParsedContent where
  lines : List ContentLine
  links : List Link
deriving DecidableEq, Repr

/-- Leftmost match of the regex `stackoverflow\.com/(?:questions|q)/(\d+)`
at the head of the list: on success, the captured digit run. -/
def soMatchAt (l : List Char) : Option String :=
  if "stackoverflow.com/".toList.isPrefixOf l then
    let afterHost := l.drop 18
    let tryPath : List Char → Option String := fun pre =>
      if pre.isPrefixOf afterHost then
        let ds := (afterHost.drop pre.length).takeWhile Char.isDigit
        if ds.isEmpty then none else some (String.mk ds)
      else none
    match tryPath "questions/".toList with
    | some ds => some ds
    | none => tryPath "q/".toList
  else none

/-- Scan for the leftmost match of the stackoverflow-question regex. -/
def soScan : List Char → Option String
  | [] => none
  | c :: rest =>
    match soMatchAt (c :: rest) with
    | some ds => some ds
    | none => soScan rest

/-- src/html.rs `extract_so_question_id`: first `(\d+)` captured by
`stackoverflow\.com/(?:questions|q)/(\d+)`, parsed as i64. -/
def extract_so_question_id (url : String) : Option Int :=
  (soScan url.toList).bind parseI64

/-- src/html.rs `is_erwin`: the lowercased author name contains the
substring "erwin".  Unicode lowercasing is modelled at the ASCII level by
`Char.toLower`. -/
def is_erwin (author_name : String) : Bool :=
  decide (List.IsInfix "erwin".toList (author_name.toList.map Char.toLower))

/-- src/html.rs `parse_code_placeholder`: a line of the exact shape
`__CODE_BLOCK_<n>__` yields `n`. -/
def parse_code_placeholder (line : String) : Option Nat :=
  let cs := line.toList
  if "__CODE_BLOCK_".toList.isPrefixOf cs ∧ ['_', '_'].isSuffixOf cs ∧ 15 ≤ cs.length then
    let inner := (cs.drop 13).dropLast.dropLast
    if inner ≠ [] ∧ inner.all Char.isDigit then
      let n := digitsToNat inner
      if n ≤ 18446744073709551615 then some n else none
    else none
  else none

/-- One segment of a text line as decomposed by iterating the regex
`\[([^\]]+)\]\[(\d+)\]`: either a (non-empty) raw stretch between matches,
or one match carrying its text and numeral captures. -/
inductive Seg where
  | raw (s : String)
  | ref (text : String) (num : String)
deriving DecidableEq, Repr

/-- Try to match `\[([^\]]+)\]\[(\d+)\]` at the head of the list; on success
return the two captures and the remaining characters. -/
def matchRefAt : List Char → Option (String × String × List Char)
  | '[' :: cs =>
    match splitAtChar ']' cs with
    | some (content, rest1) =>
      if content.isEmpty then none
      else match rest1 with
        | '[' :: rest2 =>
          let ds := rest2.takeWhile Char.isDigit
          if ds.isEmpty then none
          else match rest2.drop ds.length with
            | ']' :: rest3 => some (String.mk content, String.mk ds, rest3)
            | _ => none
        | _ => none
    | none => none
  | _ => none

/-- Decompose a line into segments by repeatedly finding the leftmost
regex match, as `captures_iter` does; a failed match attempt advances one
character.  `fuel` bounds recursion; callers pass the input length. -/
def scanSegsAux : Nat → List Char → List Char → List Seg
  | _, pend, [] => if pend.isEmpty then [] else [Seg.raw (String.mk pend)]
  | 0, pend, rest =>
    if (pend ++ rest).isEmpty then [] else [Seg.raw (String.mk (pend ++ rest))]
  | fuel + 1, pend, c :: rest =>
    match matchRefAt (c :: rest) with
    | some (text, num, rest') =>
      let tail := Seg.ref text num :: scanSegsAux fuel [] rest'
      if pend.isEmpty then tail else Seg.raw (String.mk pend) :: tail
    | none => scanSegsAux fuel (pend ++ [c]) rest

/-- Segments of one line under the link-reference regex. -/
def scanSegs (line : String) : List Seg :=
  scanSegsAux line.toList.length [] line.toList

/-- src/html.rs `style_link_references`: restyle `[text][n]` matches (text
cyan underlined, numeral dark gray) when `n` is a valid 1-based index into
the link map, keep raw text otherwise; a line with no spans at all becomes
`Line::from(line)`. -/
def style_link_references (line : String) (link_map : List (String × String)) : RLine :=
  let spans := (scanSegs line).flatMap (fun seg =>
    match seg with
    | .raw s => [Span.raw s]
    | .ref text num =>
      match parseUsize num with
      | some idx =>
        if 0 < idx ∧ idx ≤ link_map.length then
          [Span.styled ("[" ++ text ++ "]")
            (Style.addMod (Style.setFg {} .Cyan) .UNDERLINED),
           Span.styled ("[" ++ num ++ "]") (Style.setFg {} .DarkGray)]
        else [Span.raw ("[" ++ text ++ "]" ++ "[" ++ num ++ "]")]
      | none => [Span.raw ("[" ++ text ++ "]" ++ "[" ++ num ++ "]")])
  if spans.isEmpty then RLine.fromStr line else ⟨spans⟩

/-- The `Link` records produced for one text line (src/html.rs lines
101-116): one per regex match whose numeral parses and is a valid 1-based
index into the link map, anchored at the given line index. -/
def lineLinks (link_map : List (String × String)) (line_index : Nat)
    (line : String) : List Link :=
  (scanSegs line).filterMap (fun seg =>
    match seg with
    | .raw _ => none
    | .ref _ num =>
      match parseUsize num with
      | some link_num =>
        if 0 < link_num ∧ link_num ≤ link_map.length then
          let url := (link_map.getD (link_num - 1) ("", "")).2
          some { url := url, line_index := line_index, link_num := link_num,
                 question_id := extract_so_question_id url }
        else none
      | none => none)

/-! src/highlight.rs -/

/-- A syntect syntax reference: either the grammar resolved for a token of
the bundled default set, or the plain-text fallback. -/
inductive Grammar where
  | token (name : String)
  | plainText
deriving DecidableEq, Repr

/-- Modelled from the spec: the tokens resolved by syntect's bundled default
syntax set (`SYNTAX_SET.find_syntax_by_token`), which is external to src/.
The spec requires a default lexical grammar to exist for the fallback; the
model records the tokens the program relies on, including the fallback
token "sql". -/
def knownSyntaxTokens : List String := ["sql", "javascript", "python", "bash", "rust"]

/-- Modelled from the spec: syntect's `find_syntax_by_token` over the
bundled default set. -/
def find_syntax_by_token (tok : String) : Option Grammar :=
  if tok ∈ knownSyntaxTokens then some (Grammar.token tok) else none

/-- The syntax-selection chain of src/highlight.rs `highlight_code` lines
12-15: the hinted grammar, else the "sql" grammar, else plain text. -/
def chooseSyntax (lang : Option String) : Grammar :=
  (((lang.bind find_syntax_by_token).orElse
      (fun _ => find_syntax_by_token "sql")).getD Grammar.plainText)

/-- Modelled from the spec: syntect's per-line tokenization under a theme is
external to src/; the model emits the line as a single span whose style is
derived from the chosen grammar, so that grammar-styled and plain output
stay distinguishable. -/
def highlightLineModel (g : Grammar) (line : String) : List Span :=
  match g with
  | .plainText => [Span.styled line (Style.setFg {} (Color.Rgb 192 197 206))]
  | .token t => [Span.styled line (Style.setFg {} (Color.Rgb 143 161 179)),
                 Span.styled t {}]

/-- src/highlight.rs `highlight_code`: select a grammar (hinted, else the
"sql" default, else plain text) and highlight each line of the code. -/
def highlight_code (code : String) (lang : Option String) : List RLine :=
  let syn := chooseSyntax lang
  (rustLines code).map (fun line => RLine.mk (highlightLineModel syn line))

/-! The front half of src/html.rs `html_to_content` (lines 44-79): anchor
extraction with scraper, pre-block extraction, and html2text conversion.
These depend on the external scraper, regex-replacement and html2text
crates, so they are modelled from the spec (spec 4.1 steps 1-3). -/

/-- The data handed from the external front half to the line-walking loop:
the anchor map, the extracted code blocks, and the word-wrapped text. -/
structure FrontEnd where
  link_map : List (String × String)
  code_blocks : List (String × Option String)
  text : String
deriving DecidableEq, Repr

/-- Try to match `<a href="url">text</a>` at the head; on success return the
visible text, the destination, and the remaining characters. -/
def matchAnchorAt (l : List Char) : Option (String × String × List Char) :=
  if "<a href=\"".toList.isPrefixOf l then
    match splitAtChar '"' (l.drop 9) with
    | some (url, rest1) =>
      match rest1 with
      | '>' :: rest2 =>
        match splitAtSeq "</a>".toList rest2 with
        | some (text, rest3) => some (String.mk text, String.mk url, rest3)
        | none => none
      | _ => none
    | none => none
  else none

/-- Modelled from the spec (4.1 step 1): scan anchor elements left to right;
each with non-empty text and destination is numbered and replaced by the
literal `[text][n]`.  `fuel` bounds recursion; callers pass the length. -/
def extractAnchorsAux : Nat → List (String × String) → List Char → List Char →
    List (String × String) × List Char
  | _, links, acc, [] => (links, acc)
  | 0, links, acc, rest => (links, acc ++ rest)
  | fuel + 1, links, acc, c :: rest =>
    match matchAnchorAt (c :: rest) with
    | some (text, url, rest') =>
      if text ≠ "" ∧ url ≠ "" then
        let n := links.length + 1
        extractAnchorsAux fuel (links ++ [(text, url)])
          (acc ++ ("[" ++ text ++ "][" ++ toString n ++ "]").toList) rest'
      else extractAnchorsAux fuel links (acc ++ [c]) rest
    | none => extractAnchorsAux fuel links (acc ++ [c]) rest

/-- Try to match `<pre>code</pre>` or `<pre class="cls">code</pre>` at the
head; on success return the code, the class attribute, and the rest. -/
def matchPreAt (l : List Char) : Option (String × Option String × List Char) :=
  if "<pre>".toList.isPrefixOf l then
    match splitAtSeq "</pre>".toList (l.drop 5) with
    | some (code, rest) => some (String.mk code, none, rest)
    | none => none
  else if "<pre class=\"".toList.isPrefixOf l then
    match splitAtChar '"' (l.drop 12) with
    | some (cls, rest1) =>
      match rest1 with
      | '>' :: rest2 =>
        match splitAtSeq "</pre>".toList rest2 with
        | some (code, rest3) => some (String.mk code, some (String.mk cls), rest3)
        | none => none
      | _ => none
    | none => none
  else none

/-- Modelled from the spec (4.1 step 2): scan block code elements left to
right; each is recorded with its language hint and replaced by a unique
opaque placeholder `__CODE_BLOCK_i__`. -/
def extractPresAux : Nat → List (String × Option String) → List Char → List Char →
    List (String × Option String) × List Char
  | _, blocks, acc, [] => (blocks, acc)
  | 0, blocks, acc, rest => (blocks, acc ++ rest)
  | fuel + 1, blocks, acc, c :: rest =>
    match matchPreAt (c :: rest) with
    | some (code, cls, rest') =>
      let placeholder := "__CODE_BLOCK_" ++ toString blocks.length ++ "__"
      extractPresAux fuel (blocks ++ [(code, extract_lang_from_class cls)])
        (acc ++ placeholder.toList) rest'
    | none => extractPresAux fuel blocks (acc ++ [c]) rest

/-- Drop every `<...>` tag run from a character list.  `fuel` bounds
recursion; callers pass the length. -/
def stripTagCharsAux : Nat → List Char → List Char
  | _, [] => []
  | 0, rest => rest
  | fuel + 1, c :: rest =>
    if c = '<' then
      match splitAtChar '>' rest with
      | some (_, after) => stripTagCharsAux fuel after
      | none => []
    else c :: stripTagCharsAux fuel rest

/-- Drop every `<...>` tag run from a character list. -/
def stripTagChars (l : List Char) : List Char := stripTagCharsAux l.length l

/-- Greedy word wrap of one paragraph at the given width (floored at 1),
never breaking inside a word. -/
def wrapGreedy (w : Nat) : String → List String → List String
  | cur, [] => [cur]
  | cur, word :: rest =>
    if (cur ++ " " ++ word).length ≤ w then wrapGreedy w (cur ++ " " ++ word) rest
    else cur :: wrapGreedy w word rest

/-- Word wrap one line of plain text at the given width. -/
def wrapLine (width : Nat) (s : String) : List String :=
  let w := max width 1
  let words := (splitOnChar ' ' s.toList).filterMap
    (fun l => if l.isEmpty then none else some (String.mk l))
  match words with
  | [] => [""]
  | word :: rest => wrapGreedy w word rest

/-- Collapse runs of consecutive blank lines to a single blank line. -/
def collapseBlanks : List String → List String
  | [] => []
  | "" :: "" :: rest => collapseBlanks ("" :: rest)
  | l :: rest => l :: collapseBlanks rest

/-- Modelled from the spec (4.1 step 3): html2text conversion of the
remaining HTML to plain word-wrapped text, external to src/.  Block breaks
become newlines, remaining tags are dropped, paragraphs are word-wrapped at
the given width, consecutive blank lines collapse, and the output carries a
trailing newline per emitted line (so an empty fragment yields exactly one
empty line, per the spec's edge case). -/
def html2textModel (html : String) (width : Nat) : String :=
  let s := replaceStr (replaceStr (replaceStr html "</p>" "\n") "<br>" "\n") "<br/>" "\n"
  let rawLines := splitOnChar '\n' (stripTagChars s.toList)
  let wrapped := collapseBlanks (rawLines.flatMap (fun l => wrapLine width (String.mk l)))
  wrapped.foldl (fun acc l => acc ++ l ++ "\n") ""

/-- Modelled from the spec: the front half of `html_to_content`
(src/html.rs lines 44-79), combining the anchor scan, the pre-block scan on
the anchor-processed markup, and the html2text conversion. -/
def frontEnd (html : String) (width : Nat) : FrontEnd :=
  let (link_map, s1) := extractAnchorsAux html.toList.length [] [] html.toList
  let (code_blocks, s2) := extractPresAux s1.length [] [] s1
  { link_map := link_map, code_blocks := code_blocks,
    text := html2textModel (String.mk s2) width }

/-! The back half of src/html.rs `html_to_content` (lines 81-127): walk the
wrapped text line by line, expanding code placeholders and collecting link
records, embedded directly from the source. -/

/-- The two vectors grown by the line-walking loop. -/
structure PCState where
  lines : List ContentLine
  links : List Link
deriving DecidableEq, Repr

/-- One iteration of the line-walking loop (src/html.rs lines 82-122): a
code-placeholder line expands to the highlighted code lines indented by four
spaces; any other line records one `Link` per valid reference match at the
current line count, then pushes its restyled line. -/
def processLine (link_map : List (String × String))
    (code_blocks : List (String × Option String))
    (st : PCState) (line : String) : PCState :=
  match parse_code_placeholder line with
  | some code_idx =>
    if code_idx < code_blocks.length then
      let cb := code_blocks.getD code_idx ("", none)
      let highlighted := highlight_code cb.1 cb.2
      let indented := highlighted.map
        (fun cl => ContentLine.mk (RLine.mk (Span.raw "    " :: cl.spans)))
      { st with lines := st.lines ++ indented }
    else st
  | none =>
    { lines := st.lines ++ [ContentLine.mk (style_link_references line link_map)],
      links := st.links ++ lineLinks link_map st.lines.length line }

/-- src/html.rs `html_to_content`: the externally-computed front half feeds
the embedded line-walking loop. -/
def html_to_content (html : String) (width : Nat) : ParsedContent :=
  let fe := frontEnd html width
  let st := (rustLines fe.text).foldl (processLine fe.link_map fe.code_blocks)
    (PCState.mk [] [])
  { lines := st.lines, links := st.links }

/-- src/html.rs `decode_html_entities`: the fixed chain of entity
replacements. -/
def decode_html_entities (text : String) : String :=
  replaceStr (replaceStr (replaceStr (replaceStr (replaceStr (replaceStr
    (replaceStr (replaceStr text "&lt;" "<") "&gt;" ">") "&amp;" "&")
    "&quot;" "\"") "&#39;" "'") "&nbsp;" " ") "&#x27;" "'") "&#x2F;" "/"

/-- src/html.rs `strip_html_tags`: html2text at width 10000 (modelled), then
all lines joined and whitespace-collapsed to single spaces. -/
def strip_html_tags (html : String) : String :=
  let text := html2textModel html 10000
  let words := (rustLines text).flatMap
    (fun l => (splitOnChar ' ' l.toList).filterMap
      (fun w => if w.isEmpty then none else some (String.mk w)))
  String.intercalate " " words

/-! src/db.rs data model.  The sqlite-backed queries are embedded as pure
lookups over row lists (one list per table), mirroring the SELECT/WHERE
statements of src/db.rs. -/

/-- src/db.rs `Question`. -/
structure Question where
  id : Int
  title : String
  body : String
  score : Int
  view_count : Int
  answer_count : Int
  creation_date : Int
  accepted_answer_id : Option Int
  author_name : String
deriving DecidableEq, Repr

/-- src/db.rs `Answer`. -/
structure Answer where
  id : Int
  answer_id : Int
  answer_text : String
  score : Int
  is_accepted : Bool
  author_name : String
  author_reputation : Int
deriving DecidableEq, Repr

/-- src/db.rs `Comment`. -/
structure Comment where
  comment_text : String
  score : Int
  author_name : String
deriving DecidableEq, Repr

/-- src/db.rs `Database`: the read-only storage, with each table as an
ordered row list (answers and comments keyed by their owning id). -/
structure Database where
  questions : List Question
  answers : List (Int × Answer)
  question_comments : List (Int × Comment)
  answer_comments : List (Int × Comment)
deriving DecidableEq, Repr

/-- src/db.rs `get_question`: SELECT ... FROM questions WHERE id = ?. -/
def Database.get_question (db : Database) (id : Int) : Option Question :=
  db.questions.find? (fun q => q.id = id)

/-- src/db.rs `get_answers`: SELECT ... FROM answers WHERE question_id = ?
ORDER BY answer_order (rows kept in stored order). -/
def Database.get_answers (db : Database) (question_id : Int) : List Answer :=
  (db.answers.filter (fun r => r.1 = question_id)).map (fun r => r.2)

/-- src/db.rs `get_question_comments`. -/
def Database.get_question_comments (db : Database) (question_id : Int) : List Comment :=
  (db.question_comments.filter (fun r => r.1 = question_id)).map (fun r => r.2)

/-- src/db.rs `get_answer_comments`. -/
def Database.get_answer_comments (db : Database) (answer_id : Int) : List Comment :=
  (db.answer_comments.filter (fun r => r.1 = answer_id)).map (fun r => r.2)

/-! src/content.rs -/

/-- src/content.rs `RenderedContent`. -/
structure RenderedContent where
  lines : List RLine
  erwin_positions : List Nat
  links : List Link
deriving DecidableEq, Repr

/-- src/content.rs `RenderedErwinContent`. -/
structure RenderedErwinContent where
  lines : List RLine
  links : List Link
deriving DecidableEq, Repr

/-- Modelled from the spec: chrono's `%b %d, %Y` formatting of the epoch
timestamp is external to src/; the model renders the raw epoch value.  The
zero-timestamp guard is src/content.rs `format_date`. -/
def format_date (timestamp : Int) : String :=
  if timestamp = 0 then "N/A" else "epoch " ++ toString timestamp

/-- One decimal digit of `num / scale`, rounded half to even as f64
formatting does on these magnitudes. -/
def roundTenths (num scale : Nat) : Nat :=
  let q := num * 10 / scale
  let r := num * 10 % scale
  if 2 * r > scale then q + 1
  else if 2 * r = scale then (if q % 2 = 1 then q + 1 else q)
  else q

/-- src/content.rs `format_number`: millions and thousands get one decimal
place (the f64 `{:.1}` formatting is modelled by exact rounding half to
even), smaller numbers print as-is. -/
def format_number (num : Int) : String :=
  if num ≥ 1000000 then
    let d := roundTenths num.toNat 1000000
    toString (d / 10) ++ "." ++ toString (d % 10) ++ "M"
  else if num ≥ 1000 then
    let d := roundTenths num.toNat 1000
    toString (d / 10) ++ "." ++ toString (d % 10) ++ "K"
  else toString num

/-- The horizontal separator line: `─` repeated `min content_width 60`
times, in the separator style. -/
def separatorLine (content_width : Nat) : RLine :=
  ⟨[Span.styled (String.mk (List.replicate (min content_width 60) '─')) separator_style]⟩

/-- A comment line under the question (src/content.rs lines 91-104):
`    [+s] text — author` in the comment text style. -/
def questionCommentLine (comment : Comment) : RLine :=
  let vote_str := if comment.score > 0 then "[+" ++ toString comment.score ++ "] " else ""
  ⟨[Span.styled ("    " ++ vote_str ++ strip_html_tags comment.comment_text
      ++ " — " ++ comment.author_name) comment_text_style]⟩

/-- The question-comments block (src/content.rs lines 83-106), emitted only
when comments exist: a blank line, a header, then a blank line before each
comment line. -/
def questionCommentsBlock (comments : List Comment) : List RLine :=
  [emptyRLine,
   ⟨[Span.styled ("Comments (" ++ toString comments.length ++ ")") comment_header_style]⟩]
  ++ comments.flatMap (fun c => [emptyRLine, questionCommentLine c])

/-- A comment line under an answer (src/content.rs lines 208-232):
`    ◆ [+s] text — author`, yellow when the comment author is the
distinguished author. -/
def answerCommentLine (comment : Comment) : RLine :=
  let comment_is_erwin := is_erwin comment.author_name
  let vote_str := if comment.score > 0 then "[+" ++ toString comment.score ++ "] " else ""
  let erwin_mark := if comment_is_erwin then "◆ " else ""
  let style := if comment_is_erwin then Style.setFg {} .Yellow else comment_text_style
  ⟨[Span.styled ("    " ++ erwin_mark ++ vote_str
      ++ strip_html_tags comment.comment_text ++ " — " ++ comment.author_name) style]⟩

/-- The answer-comments block (src/content.rs lines 200-233), emitted only
when comments exist. -/
def answerCommentsBlock (comments : List Comment) : List RLine :=
  [emptyRLine,
   ⟨[Span.styled ("Comments (" ++ toString comments.length ++ ")") comment_header_style]⟩]
  ++ comments.flatMap (fun c => [emptyRLine, answerCommentLine c])

/-- The answer header line (src/content.rs lines 129-163) for answer `i`
(0-based): vote count, accepted marker, and the distinguished-author
variant with its accent span. -/
def answerHeaderLine (i : Nat) (answer : Answer) (author_is_erwin : Bool) : RLine :=
  let accepted_mark := if answer.is_accepted then " ✓ ACCEPTED" else ""
  let score_str := if answer.score > 0 then "+" ++ toString answer.score
    else toString answer.score
  let erwin_mark := if author_is_erwin then " ◆" else ""
  if author_is_erwin then
    ⟨[Span.styled " ◆ " erwin_header_style,
      Span.styled ("ANSWER " ++ toString (i + 1) ++ accepted_mark
        ++ "  (" ++ score_str ++ " votes)")
        (Style.addMod (Style.setFg {} .Yellow) .BOLD)]⟩
  else
    ⟨[Span.styled ("ANSWER " ++ toString (i + 1) ++ accepted_mark ++ erwin_mark
        ++ "  (" ++ score_str ++ " votes)") answer_header_style]⟩

/-- The `by author (rep)` line under an answer header (src/content.rs lines
165-178). -/
def answerByLine (answer : Answer) (author_is_erwin : Bool) : RLine :=
  let author_style := if author_is_erwin then erwin_text_style else {}
  ⟨[Span.styled ("by " ++ answer.author_name ++ " ("
      ++ format_number answer.author_reputation ++ " rep)") author_style]⟩

/-- The three vectors grown by the per-answer loop of
`build_question_content`. -/
structure BState where
  lines : List RLine
  erwin_positions : List Nat
  all_links : List Link
deriving DecidableEq, Repr

/-- One iteration of the per-answer loop of `build_question_content`
(src/content.rs lines 109-234): skip the distinguished author's answers
when they are shown in a dedicated pane; otherwise emit the separator
block, record a jump position three lines before the header for the
distinguished author, emit the header, the author line, the body (accent
prefixed for the distinguished author, links re-based by the line count at
the body start), and the comments block. -/
def processAnswer (content_width : Nat) (hide_erwin : Bool)
    (answer_comments : List (List Comment)) (st : BState)
    (ia : Nat × Answer) : BState :=
  let i := ia.1
  let answer := ia.2
  let author_is_erwin := is_erwin answer.author_name
  if author_is_erwin && hide_erwin then st
  else
    let lines := st.lines ++ [emptyRLine, separatorLine content_width, emptyRLine]
    let erwin_positions :=
      if author_is_erwin then st.erwin_positions ++ [lines.length - 3]
      else st.erwin_positions
    let lines := lines ++ [answerHeaderLine i answer author_is_erwin,
      answerByLine answer author_is_erwin, emptyRLine]
    let answer_content := html_to_content answer.answer_text content_width
    let answer_link_offset := lines.length
    let bodyLines := answer_content.lines.map (fun cl =>
      if author_is_erwin then RLine.mk (Span.styled "│ " erwin_accent_style :: cl.line.spans)
      else cl.line)
    let lines := lines ++ bodyLines
    let all_links := st.all_links ++ answer_content.links.map
      (fun l => { l with line_index := l.line_index + answer_link_offset })
    let comments := answer_comments.getD i []
    let lines := if comments.isEmpty then lines else lines ++ answerCommentsBlock comments
    { lines := lines, erwin_positions := erwin_positions, all_links := all_links }

/-- The document state after the title/meta block, the question body and
the question comments (src/content.rs lines 30-106), before any answer is
processed. -/
def buildInit (question : Question) (question_comments : List Comment)
    (content_width : Nat) : BState :=
  let lines : List RLine :=
    [⟨[Span.styled (decode_html_entities question.title) title_style]⟩,
     ⟨[Span.styled ("stackoverflow.com/questions/" ++ toString question.id)
         (Style.addMod (Style.setFg {} .Cyan) .DIM)]⟩,
     ⟨[Span.styled ("Asked by " ++ question.author_name ++ " on "
         ++ format_date question.creation_date ++ "  |  " ++ toString question.score
         ++ " votes  |  " ++ format_number question.view_count ++ " views") {}]⟩,
     emptyRLine, separatorLine content_width, emptyRLine,
     ⟨[Span.styled "QUESTION" question_header_style]⟩, emptyRLine]
  let body_content := html_to_content question.body content_width
  let link_offset := lines.length
  let lines := lines ++ body_content.lines.map (fun cl => cl.line)
  let all_links := body_content.links.map
    (fun l => { l with line_index := l.line_index + link_offset })
  let lines := if question_comments.isEmpty then lines
    else lines ++ questionCommentsBlock question_comments
  { lines := lines, erwin_positions := [], all_links := all_links }

/-- src/content.rs `build_question_content`: compose the full document from
the title block, the question body and comments, the per-answer sections,
and the trailing separator. -/
def build_question_content (question : Question) (answers : List Answer)
    (question_comments : List Comment) (answer_comments : List (List Comment))
    (width : Nat) (hide_erwin : Bool) : RenderedContent :=
  let content_width := width - 4
  let st := answers.enum.foldl
    (processAnswer content_width hide_erwin answer_comments)
    (buildInit question question_comments content_width)
  { lines := st.lines ++ [emptyRLine, separatorLine content_width],
    erwin_positions := st.erwin_positions,
    links := st.all_links }

/-- src/content.rs `build_erwin_content`: the focus-pane rendering of one
answer and its comments at `width - 6`. -/
def build_erwin_content (answer : Answer) (comments : List Comment)
    (width : Nat) : RenderedErwinContent :=
  let content_width := width - 6
  let accepted_mark := if answer.is_accepted then " ✓ ACCEPTED" else ""
  let score_str := if answer.score > 0 then "+" ++ toString answer.score
    else toString answer.score
  let lines : List RLine :=
    [⟨[Span.styled ("ANSWER" ++ accepted_mark ++ "  (" ++ score_str ++ " votes)")
        (Style.addMod (Style.setFg {} .Yellow) .BOLD)]⟩,
     ⟨[Span.styled ("by " ++ answer.author_name ++ " ("
        ++ format_number answer.author_reputation ++ " rep)") erwin_text_style]⟩,
     emptyRLine]
  let answer_content := html_to_content answer.answer_text content_width
  let link_offset := lines.length
  let lines := lines ++ answer_content.lines.map (fun cl => cl.line)
  let all_links := answer_content.links.map
    (fun l => { l with line_index := l.line_index + link_offset })
  let lines := if comments.isEmpty then lines else lines ++ answerCommentsBlock comments
  { lines := lines, links := all_links }

/-! src/app.rs: the navigator state machine.  The index-page search and
sort fields are omitted: none of the embedded transitions (resize, rebuild,
navigate, back, link cycle) read or write them. -/

/-- src/app.rs `Page`. -/
inductive Page where
  | Index
  | Show
deriving DecidableEq, Repr

/-- src/app.rs `App`, restricted to the document-view and navigation
state. -/
structure App where
  db : Database
  questions : List Question
  page : Page
  width : Nat
  height : Nat
  current_question_id : Int
  current_question : Option Question
  current_answers : List Answer
  current_comments : List Comment
  answer_comments : List (List Comment)
  scroll_offset : Nat
  erwin_pane_visible : Bool
  erwin_answer_index : Nat
  left_pane_focused : Bool
  erwin_scroll_offset : Nat
  focused_link_index : Option Nat
  rendered_content : List RLine
  rendered_erwin_content : List RLine
  erwin_answer_positions : List Nat
  rendered_width : Nat
  content_links : List Link
  erwin_links : List Link
  history : List Int
deriving DecidableEq, Repr

/-- src/app.rs `erwin_answer_count`: the number of current answers by the
distinguished author. -/
def App.erwin_answer_count (app : App) : Nat :=
  (app.current_answers.filter (fun a => is_erwin a.author_name)).length

/-- src/app.rs `get_current_erwin_answer`: the distinguished-author answer
selected by the pane cursor. -/
def App.get_current_erwin_answer (app : App) : Option Answer :=
  (app.current_answers.filter (fun a => is_erwin a.author_name)).get?
    app.erwin_answer_index

/-- src/app.rs `rebuild_content`: when a document is loaded, recompose the
main document at the current width, hiding the distinguished author's
answers exactly when the dedicated pane is visible on a wide terminal. -/
def App.rebuild_content (app : App) : App :=
  match app.current_question with
  | some question =>
    let hide_erwin := app.erwin_pane_visible && decide (app.width ≥ 160)
    let content := build_question_content question app.current_answers
      app.current_comments app.answer_comments app.width hide_erwin
    { app with rendered_content := content.lines,
               erwin_answer_positions := content.erwin_positions,
               content_links := content.links,
               rendered_width := app.width }
  | none => app

/-- src/app.rs `rebuild_erwin_content`: recompose the focus pane for the
currently selected distinguished answer at half width. -/
def App.rebuild_erwin_content (app : App) : App :=
  match app.get_current_erwin_answer with
  | some answer =>
    let comments :=
      match app.current_answers.findIdx? (fun a => a.id = answer.id) with
      | some i => app.answer_comments.getD i []
      | none => []
    let content := build_erwin_content answer comments (app.width / 2)
    { app with rendered_erwin_content := content.lines,
               erwin_links := content.links }
  | none => app

/-- src/app.rs `handle_resize`: store the new dimensions; rebuild the main
document only when the width changed while showing a loaded document. -/
def App.handle_resize (app : App) (width height : Nat) : App :=
  let width_changed := app.width ≠ width
  let app := { app with width := width, height := height }
  if width_changed ∧ app.page = Page.Show ∧ app.current_question.isSome then
    app.rebuild_content
  else app

/-- src/app.rs `navigate_to_question`: push the current id when already in
document view, load the document fresh from storage, reset all
document-view state, switch to the show page, and rebuild the content. -/
def App.navigate_to_question (app : App) (question_id : Int) : App :=
  let history := if app.page = Page.Show then app.history ++ [app.current_question_id]
    else app.history
  let current_answers := app.db.get_answers question_id
  let answer_comments := current_answers.map (fun a => app.db.get_answer_comments a.id)
  let app := { app with
    history := history,
    current_question_id := question_id,
    current_question := app.db.get_question question_id,
    current_answers := current_answers,
    current_comments := app.db.get_question_comments question_id,
    answer_comments := answer_comments,
    scroll_offset := 0,
    erwin_pane_visible := false,
    erwin_answer_index := 0,
    left_pane_focused := true,
    erwin_scroll_offset := 0,
    focused_link_index := none,
    page := Page.Show }
  app.rebuild_content

/-- src/app.rs `go_back`: pop the history stack (a Vec pops at its end);
when non-empty, navigate to the popped id and then drop the entry that the
navigation itself pushed; when empty, return to the index page. -/
def App.go_back (app : App) : App :=
  match app.history.getLast? with
  | some prev_id =>
    let app := { app with history := app.history.dropLast }
    let app := app.navigate_to_question prev_id
    { app with history := app.history.dropLast }
  | none => { app with page := Page.Index }

/-- src/app.rs `cycle_link`: advance or retreat the focused-link index with
wraparound over the focused pane's link list (a no-op when that list is
empty), then scroll just enough to bring the target link's line into the
visible window. -/
def App.cycle_link (app : App) (forward : Bool) : App :=
  let onErwin := app.erwin_pane_visible && !app.left_pane_focused
  let links := if onErwin then app.erwin_links else app.content_links
  if links.isEmpty then app
  else
    let new_index :=
      match app.focused_link_index with
      | some current =>
        if forward then (if current + 1 ≥ links.length then 0 else current + 1)
        else if current = 0 then links.length - 1
        else current - 1
      | none => if forward then 0 else links.length - 1
    let app := { app with focused_link_index := some new_index }
    match links.get? new_index with
    | some link =>
      let visible_height := app.height - 2
      let offset := if onErwin then app.erwin_scroll_offset else app.scroll_offset
      let offset :=
        if link.line_index < offset then link.line_index
        else if link.line_index ≥ offset + visible_height then
          link.line_index - visible_height / 2
        else offset
      if onErwin then { app with erwin_scroll_offset := offset }
      else { app with scroll_offset := offset }
    | none => app

/-- src/app.rs `get_focused_link`. -/
def App.get_focused_link (app : App) : Option Link :=
  let links := if app.erwin_pane_visible && !app.left_pane_focused then app.erwin_links
    else app.content_links
  app.focused_link_index.bind (fun idx => links.get? idx)

/-! Derived notions used by the statements below. -/

/-- Re-base a link's line index by `n`, as the composer does when moving a
fragment-local link into the document-wide list. -/
def shiftLink (n : Nat) (l : Link) : Link := { l with line_index := l.line_index + n }

/-- The lines one non-skipped answer section contributes to the document,
independent of what was composed before it: separator block, header,
author line, blank, body, and comment block. -/
def sectionLines (content_width : Nat) (answer_comments : List (List Comment))
    (ia : Nat × Answer) : List RLine :=
  let answer := ia.2
  let e := is_erwin answer.author_name
  let body := (html_to_content answer.answer_text content_width).lines.map (fun cl =>
    if e then RLine.mk (Span.styled "│ " erwin_accent_style :: cl.line.spans) else cl.line)
  let comments := answer_comments.getD ia.1 []
  [emptyRLine, separatorLine content_width, emptyRLine,
   answerHeaderLine ia.1 answer e, answerByLine answer e, emptyRLine]
  ++ body ++ (if comments.isEmpty then [] else answerCommentsBlock comments)

/-- The per-answer fold of `build_question_content` stopped after the first
`k` answers: the document state with the first `k` answer sections
composed. -/
def stateAfter (content_width : Nat) (hide_erwin : Bool)
    (answer_comments : List (List Comment)) (answers : List Answer)
    (st0 : BState) (k : Nat) : BState :=
  (answers.enum.take k).foldl (processAnswer content_width hide_erwin answer_comments) st0

/-- The prefix states of `build_question_content`'s per-answer fold, with
the arguments the builder passes them: content width `width - 4` and the
initial state composed from the question section. -/
def docStates (question : Question) (answers : List Answer)
    (question_comments : List Comment) (answer_comments : List (List Comment))
    (width : Nat) (hide_erwin : Bool) (k : Nat) : BState :=
  stateAfter (width - 4) hide_erwin answer_comments answers
    (buildInit question question_comments (width - 4)) k

/-- The links contributed to the document by answer section `k`: the links
present after composing the first `k + 1` answers but not after the first
`k`. -/
def sectionNewLinks (question : Question) (answers : List Answer)
    (question_comments : List Comment) (answer_comments : List (List Comment))
    (width : Nat) (hide_erwin : Bool) (k : Nat) : List Link :=
  (docStates question answers question_comments answer_comments width hide_erwin
    (k + 1)).all_links.drop
    (docStates question answers question_comments answer_comments width hide_erwin
      k).all_links.length

/-- The number of answer-header lines in a composed document (a line one of
whose spans starts with "ANSWER"). -/
def answerHeaderCount (c : RenderedContent) : Nat :=
  (c.lines.filter (fun l => l.spans.any (fun s => strStarts s.content "ANSWER"))).length

/-- The link list of whichever pane has focus, as read by `cycle_link`. -/
def App.activeLinks (app : App) : List Link :=
  if app.erwin_pane_visible && !app.left_pane_focused then app.erwin_links
  else app.content_links

/-- The focused-link index selected by one `cycle_link` step over a pane
with `n` links. -/
def nextLinkIndex (n : Nat) (cur : Option Nat) (forward : Bool) : Nat :=
  match cur with
  | some current =>
    if forward then (if current + 1 ≥ n then 0 else current + 1)
    else if current = 0 then n - 1
    else current - 1
  | none => if forward then 0 else n - 1

/-! Concrete instances used by the closed witness and counterexample
statements. -/

/-- A placeholder link for `getD`. -/
def linkDflt : Link := ⟨"", 0, 0, none⟩

def linkEx1 : Link := ⟨"http://one.example", 0, 1, none⟩

def linkEx2 : Link := ⟨"http://two.example", 30, 2, none⟩

def dbEx : Database := ⟨[], [], [], []⟩

/-- A baseline navigator state in document view. -/
def appBase : App :=
  { db := dbEx, questions := [], page := Page.Show, width := 80, height := 24,
    current_question_id := 7, current_question := none, current_answers := [],
    current_comments := [], answer_comments := [], scroll_offset := 0,
    erwin_pane_visible := false, erwin_answer_index := 0, left_pane_focused := true,
    erwin_scroll_offset := 0, focused_link_index := none, rendered_content := [],
    rendered_erwin_content := [], erwin_answer_positions := [], rendered_width := 80,
    content_links := [], erwin_links := [], history := [3] }

/-- Document view with two links in the main pane and no focused link. -/
def appC5 : App := { appBase with content_links := [linkEx1, linkEx2], history := [] }

def qEx1 : Question :=
  ⟨1, "T", "<a href=\"http://q.example\">q</a>", 3, 100, 2, 0, none, "Carol"⟩

def ansL1 : Answer := ⟨10, 100, "<a href=\"http://a.example\">a</a>", 1, false, "Alice", 10⟩

def ansL2 : Answer := ⟨11, 101, "<a href=\"http://b.example\">b</a>", 2, false, "Bob", 20⟩

def aErw1 : Answer := ⟨20, 200, "first erwin answer", 5, true, "Erwin Brandstetter", 500⟩

def aErw2 : Answer := ⟨21, 201, "second erwin answer", 4, false, "erwinx", 400⟩

def aOrd1 : Answer := ⟨22, 202, "plain one", 3, false, "Alice", 10⟩

def aOrd2 : Answer := ⟨23, 203, "plain two", 2, false, "Bob", 20⟩

def aOrd3 : Answer := ⟨24, 204, "plain three", 1, false, "Carol", 30⟩

/-- Two distinguished and three ordinary answers. -/
def answersEx6 : List Answer := [aErw1, aOrd1, aOrd2, aErw2, aOrd3]

def qEx6 : Question := ⟨2, "Q6", "question body", 9, 50, 5, 0, none, "Dave"⟩

/-! Lemmas about the extractor's line-walking loop. -/

theorem lineLinks_line_index (lm : List (String × String)) (n : Nat) (line : String) :
    ∀ l ∈ lineLinks lm n line, l.line_index = n := by
  intro l hl
  simp only [lineLinks, List.mem_filterMap] at hl
  obtain ⟨seg, _, h⟩ := hl
  cases seg with
  | raw s => simp at h
  | ref t num =>
    dsimp only at h
    cases hp : parseUsize num with
    | none => rw [hp] at h; simp at h
    | some k =>
      rw [hp] at h
      dsimp only at h
      by_cases hb : 0 < k ∧ k ≤ lm.length
      · rw [if_pos hb] at h
        cases h
        rfl
      · rw [if_neg hb] at h
        cases h

theorem processLine_code (lm : List (String × String))
    (cb : List (String × Option String)) (st : PCState) (line : String)
    (idx : Nat) (hp : parse_code_placeholder line = some idx) :
    (processLine lm cb st line).links = st.links
    ∧ st.lines.length ≤ (processLine lm cb st line).lines.length := by
  unfold processLine
  rw [hp]
  by_cases hc : idx < cb.length
  · simp [hc]
  · simp [hc]

theorem processLine_plain (lm : List (String × String))
    (cb : List (String × Option String)) (st : PCState) (line : String)
    (hp : parse_code_placeholder line = none) :
    processLine lm cb st line =
      ⟨st.lines ++ [ContentLine.mk (style_link_references line lm)],
       st.links ++ lineLinks lm st.lines.length line⟩ := by
  unfold processLine
  rw [hp]

theorem processLine_links_lt (lm : List (String × String))
    (cb : List (String × Option String)) (st : PCState) (line : String)
    (h : ∀ l ∈ st.links, l.line_index < st.lines.length) :
    ∀ l ∈ (processLine lm cb st line).links,
      l.line_index < (processLine lm cb st line).lines.length := by
  intro l hl
  cases hp : parse_code_placeholder line with
  | some idx =>
    obtain ⟨hlinks, hlen⟩ := processLine_code lm cb st line idx hp
    rw [hlinks] at hl
    exact lt_of_lt_of_le (h l hl) hlen
  | none =>
    rw [processLine_plain lm cb st line hp] at hl ⊢
    simp only [List.mem_append] at hl
    rcases hl with hl | hl
    · simp only [List.length_append, List.length_cons, List.length_nil]
      exact lt_of_lt_of_le (h l hl) (by omega)
    · have := lineLinks_line_index lm st.lines.length line l hl
      simp only [List.length_append, List.length_cons, List.length_nil, this]
      omega

theorem foldl_processLine_links_lt (lm : List (String × String))
    (cb : List (String × Option String)) (ls : List String) (st : PCState)
    (h : ∀ l ∈ st.links, l.line_index < st.lines.length) :
    ∀ l ∈ (ls.foldl (processLine lm cb) st).links,
      l.line_index < (ls.foldl (processLine lm cb) st).lines.length := by
  induction ls generalizing st with
  | nil => exact h
  | cons line rest ih =>
    exact ih (processLine lm cb st line) (processLine_links_lt lm cb st line h)

/-- Every link produced by the extractor points at a line of the same
fragment. -/
theorem html_to_content_links_lt (html : String) (width : Nat) :
    ∀ l ∈ (html_to_content html width).links,
      l.line_index < (html_to_content html width).lines.length := by
  intro l hl
  simp only [html_to_content] at hl ⊢
  exact foldl_processLine_links_lt _ _ _ ⟨[], []⟩ (by intro l h; cases h) l hl

/-! Lemmas about the composer's per-answer loop. -/

theorem map_shiftLink (n : Nat) (ls : List Link) :
    ls.map (shiftLink n) =
      ls.map (fun l => { l with line_index := l.line_index + n }) := rfl

theorem processAnswer_of_skip (cw : Nat) (hide : Bool) (ac : List (List Comment))
    (st : BState) (ia : Nat × Answer)
    (h : (is_erwin ia.2.author_name && hide) = true) :
    processAnswer cw hide ac st ia = st := by
  unfold processAnswer
  simp [h]

theorem processAnswer_of_not_skip (cw : Nat) (hide : Bool) (ac : List (List Comment))
    (st : BState) (ia : Nat × Answer)
    (h : (is_erwin ia.2.author_name && hide) = false) :
    processAnswer cw hide ac st ia =
      { lines := st.lines ++ sectionLines cw ac ia,
        erwin_positions := st.erwin_positions ++
          (if is_erwin ia.2.author_name then [st.lines.length] else []),
        all_links := st.all_links ++ (html_to_content ia.2.answer_text cw).links.map
          (shiftLink (st.lines.length + 6)) } := by
  rw [map_shiftLink]
  simp only [processAnswer, sectionLines]
  rw [h, if_neg Bool.false_ne_true]
  generalize html_to_content ia.2.answer_text cw = B
  generalize ac.getD ia.1 [] = C
  generalize is_erwin ia.2.author_name = e
  cases e <;> cases hCe : C.isEmpty <;>
    simp [hCe, List.append_assoc, Nat.add_sub_cancel]

theorem sectionLines_length_ge (cw : Nat) (ac : List (List Comment))
    (ia : Nat × Answer) :
    6 + (html_to_content ia.2.answer_text cw).lines.length ≤
      (sectionLines cw ac ia).length := by
  simp only [sectionLines, List.length_append, List.length_cons, List.length_nil,
    List.length_map]
  split <;> omega

theorem processAnswer_lines_le (cw : Nat) (hide : Bool) (ac : List (List Comment))
    (st : BState) (ia : Nat × Answer) :
    st.lines.length ≤ (processAnswer cw hide ac st ia).lines.length := by
  cases h : (is_erwin ia.2.author_name && hide) with
  | true => rw [processAnswer_of_skip cw hide ac st ia h]
  | false =>
    rw [processAnswer_of_not_skip cw hide ac st ia h]
    simp [List.length_append]

theorem processAnswer_links_lt (cw : Nat) (hide : Bool) (ac : List (List Comment))
    (st : BState) (ia : Nat × Answer)
    (h : ∀ l ∈ st.all_links, l.line_index < st.lines.length) :
    ∀ l ∈ (processAnswer cw hide ac st ia).all_links,
      l.line_index < (processAnswer cw hide ac st ia).lines.length := by
  cases hsk : (is_erwin ia.2.author_name && hide) with
  | true => rw [processAnswer_of_skip cw hide ac st ia hsk]; exact h
  | false =>
    rw [processAnswer_of_not_skip cw hide ac st ia hsk]
    intro l hl
    simp only [List.mem_append] at hl
    simp only [List.length_append]
    rcases hl with hl | hl
    · exact lt_of_lt_of_le (h l hl) (Nat.le_add_right _ _)
    · obtain ⟨l', hl', rfl⟩ := List.mem_map.mp hl
      have hfrag := html_to_content_links_lt ia.2.answer_text cw l' hl'
      have hsec := sectionLines_length_ge cw ac ia
      simp only [shiftLink]
      omega

theorem foldl_processAnswer_links_lt (cw : Nat) (hide : Bool)
    (ac : List (List Comment)) (ls : List (Nat × Answer)) (st : BState)
    (h : ∀ l ∈ st.all_links, l.line_index < st.lines.length) :
    ∀ l ∈ (ls.foldl (processAnswer cw hide ac) st).all_links,
      l.line_index < (ls.foldl (processAnswer cw hide ac) st).lines.length := by
  induction ls generalizing st with
  | nil => exact h
  | cons ia rest ih =>
    exact ih (processAnswer cw hide ac st ia)
      (processAnswer_links_lt cw hide ac st ia h)

theorem foldl_processAnswer_lines_le (cw : Nat) (hide : Bool)
    (ac : List (List Comment)) (ls : List (Nat × Answer)) (st : BState) :
    st.lines.length ≤ (ls.foldl (processAnswer cw hide ac) st).lines.length := by
  induction ls generalizing st with
  | nil => exact Nat.le_refl _
  | cons ia rest ih =>
    exact Nat.le_trans (processAnswer_lines_le cw hide ac st ia)
      (ih (processAnswer cw hide ac st ia))

theorem buildInit_links_eq (q : Question) (qc : List Comment) (cw : Nat) :
    (buildInit q qc cw).all_links =
      (html_to_content q.body cw).links.map (shiftLink 8) := by
  rw [map_shiftLink]
  simp only [buildInit]
  generalize html_to_content q.body cw = B
  rfl

theorem buildInit_links_lt (q : Question) (qc : List Comment) (cw : Nat) :
    ∀ l ∈ (buildInit q qc cw).all_links,
      l.line_index < (buildInit q qc cw).lines.length := by
  intro l hl
  simp only [buildInit] at hl ⊢
  obtain ⟨l', hl', rfl⟩ := List.mem_map.mp hl
  have hfrag := html_to_content_links_lt q.body cw l' hl'
  by_cases hc : qc.isEmpty <;>
    simp [hc, List.length_append, List.length_map] <;> omega

/-! Lemmas about the prefix states of the per-answer fold. -/

theorem stateAfter_zero (cw : Nat) (hide : Bool) (ac : List (List Comment))
    (answers : List Answer) (st0 : BState) :
    stateAfter cw hide ac answers st0 0 = st0 := rfl

theorem stateAfter_succ (cw : Nat) (hide : Bool) (ac : List (List Comment))
    (answers : List Answer) (st0 : BState) (k : Nat) (hk : k < answers.length) :
    stateAfter cw hide ac answers st0 (k + 1) =
      processAnswer cw hide ac (stateAfter cw hide ac answers st0 k)
        (k, answers.get ⟨k, hk⟩) := by
  unfold stateAfter
  rw [List.take_succ, List.foldl_append]
  have h1 : answers.enum[k]? = some (k, answers.get ⟨k, hk⟩) := by
    rw [List.getElem?_enum]
    simp [List.getElem?_eq_getElem hk]
  rw [h1]
  rfl

theorem stateAfter_succ_le (cw : Nat) (hide : Bool) (ac : List (List Comment))
    (answers : List Answer) (st0 : BState) (k : Nat) :
    (stateAfter cw hide ac answers st0 k).lines.length ≤
      (stateAfter cw hide ac answers st0 (k + 1)).lines.length := by
  unfold stateAfter
  rw [List.take_succ, List.foldl_append]
  cases answers.enum[k]? with
  | none => exact Nat.le_refl _
  | some ia => exact processAnswer_lines_le cw hide ac _ ia

theorem stateAfter_lines_mono (cw : Nat) (hide : Bool) (ac : List (List Comment))
    (answers : List Answer) (st0 : BState) (k k' : Nat) (h : k ≤ k') :
    (stateAfter cw hide ac answers st0 k).lines.length ≤
      (stateAfter cw hide ac answers st0 k').lines.length := by
  induction k', h using Nat.le_induction with
  | base => exact Nat.le_refl _
  | succ n hn ih => exact Nat.le_trans ih (stateAfter_succ_le cw hide ac answers st0 n)

/-! Lemmas about the navigator transitions. -/

theorem rebuild_content_preserves (app : App) :
    (app.rebuild_content).history = app.history
    ∧ (app.rebuild_content).page = app.page
    ∧ (app.rebuild_content).current_question_id = app.current_question_id := by
  cases hq : app.current_question <;> simp [App.rebuild_content, hq]

theorem navigate_fields (app : App) (qid : Int) :
    (app.navigate_to_question qid).page = Page.Show
    ∧ (app.navigate_to_question qid).current_question_id = qid
    ∧ (app.navigate_to_question qid).history =
        (if app.page = Page.Show then app.history ++ [app.current_question_id]
         else app.history) := by
  unfold App.navigate_to_question
  obtain ⟨h1, h2, h3⟩ := rebuild_content_preserves
    { app with
      history := if app.page = Page.Show then app.history ++ [app.current_question_id]
        else app.history,
      current_question_id := qid,
      current_question := app.db.get_question qid,
      current_answers := app.db.get_answers qid,
      current_comments := app.db.get_question_comments qid,
      answer_comments := (app.db.get_answers qid).map
        (fun a => app.db.get_answer_comments a.id),
      scroll_offset := 0,
      erwin_pane_visible := false,
      erwin_answer_index := 0,
      left_pane_focused := true,
      erwin_scroll_offset := 0,
      focused_link_index := none,
      page := Page.Show }
  exact ⟨h2, h3, h1⟩

theorem cycle_link_of_empty (app : App) (f : Bool) (h : app.activeLinks = []) :
    app.cycle_link f = app := by
  simp only [App.activeLinks] at h
  simp only [App.cycle_link]
  rw [h]
  simp

theorem cycle_link_focus (app : App) (f : Bool) (h : app.activeLinks ≠ []) :
    (app.cycle_link f).focused_link_index =
      some (nextLinkIndex app.activeLinks.length app.focused_link_index f) := by
  simp only [App.activeLinks] at h ⊢
  simp only [App.cycle_link]
  have hE : (if app.erwin_pane_visible && !app.left_pane_focused then app.erwin_links
      else app.content_links).isEmpty = false := by
    cases hl : (if app.erwin_pane_visible && !app.left_pane_focused then app.erwin_links
      else app.content_links) with
    | nil => exact absurd hl h
    | cons a t => rfl
  rw [hE]
  simp only [Bool.false_eq_true, if_false, nextLinkIndex]
  cases app.focused_link_index <;>
    · repeat' split
      all_goals simp

theorem cycle_link_preserves (app : App) (f : Bool) :
    (app.cycle_link f).erwin_pane_visible = app.erwin_pane_visible
    ∧ (app.cycle_link f).left_pane_focused = app.left_pane_focused
    ∧ (app.cycle_link f).erwin_links = app.erwin_links
    ∧ (app.cycle_link f).content_links = app.content_links := by
  simp only [App.cycle_link]
  repeat' split
  all_goals simp

theorem cycle_link_activeLinks (app : App) (f : Bool) :
    (app.cycle_link f).activeLinks = app.activeLinks := by
  obtain ⟨h1, h2, h3, h4⟩ := cycle_link_preserves app f
  simp [App.activeLinks, h1, h2, h3, h4]

theorem cycle_forward_iterate (app : App) (h0 : app.focused_link_index = none)
    (hne : app.activeLinks ≠ []) :
    ∀ k, 1 ≤ k → k ≤ app.activeLinks.length →
      ((fun a => App.cycle_link a true)^[k] app).focused_link_index = some (k - 1)
      ∧ ((fun a => App.cycle_link a true)^[k] app).activeLinks = app.activeLinks := by
  intro k
  induction k with
  | zero => omega
  | succ n ih =>
    intro h1 h2
    rw [Function.iterate_succ_apply']
    by_cases hn : 1 ≤ n
    · obtain ⟨ihf, ihl⟩ := ih hn (by omega)
      have hne' : ((fun a => App.cycle_link a true)^[n] app).activeLinks ≠ [] := by
        rw [ihl]; exact hne
      constructor
      · rw [cycle_link_focus _ true hne', ihf, ihl, nextLinkIndex]
        have hlt : n - 1 + 1 < app.activeLinks.length := by omega
        simp only [if_true]
        rw [if_neg (by omega)]
        congr 1
        omega
      · rw [cycle_link_activeLinks, ihl]
    · have hn0 : n = 0 := by omega
      subst hn0
      simp only [Function.iterate_zero_apply]
      constructor
      · rw [cycle_link_focus _ true hne, h0, nextLinkIndex]
        simp
      · exact cycle_link_activeLinks app true

/-! Lemmas about per-section link contributions. -/

theorem docStates_succ_links (question : Question) (answers : List Answer)
    (qc : List Comment) (ac : List (List Comment)) (width : Nat) (hide : Bool)
    (k : Nat) (hk : k < answers.length)
    (hsk : (is_erwin (answers.get ⟨k, hk⟩).author_name && hide) = false) :
    (docStates question answers qc ac width hide (k + 1)).all_links =
      (docStates question answers qc ac width hide k).all_links ++
        (html_to_content (answers.get ⟨k, hk⟩).answer_text (width - 4)).links.map
          (shiftLink ((docStates question answers qc ac width hide k).lines.length + 6)) := by
  unfold docStates
  rw [stateAfter_succ _ _ _ _ _ k hk, processAnswer_of_not_skip _ _ _ _ _ hsk]

theorem sectionNewLinks_eq (question : Question) (answers : List Answer)
    (qc : List Comment) (ac : List (List Comment)) (width : Nat) (hide : Bool)
    (k : Nat) (hk : k < answers.length)
    (hsk : (is_erwin (answers.get ⟨k, hk⟩).author_name && hide) = false) :
    sectionNewLinks question answers qc ac width hide k =
      (html_to_content (answers.get ⟨k, hk⟩).answer_text (width - 4)).links.map
        (shiftLink ((docStates question answers qc ac width hide k).lines.length + 6)) := by
  unfold sectionNewLinks
  rw [docStates_succ_links question answers qc ac width hide k hk hsk, List.drop_left]

theorem docStates_succ_lines_ge (question : Question) (answers : List Answer)
    (qc : List Comment) (ac : List (List Comment)) (width : Nat) (hide : Bool)
    (k : Nat) (hk : k < answers.length)
    (hsk : (is_erwin (answers.get ⟨k, hk⟩).author_name && hide) = false) :
    (docStates question answers qc ac width hide k).lines.length + 6 +
        (html_to_content (answers.get ⟨k, hk⟩).answer_text (width - 4)).lines.length ≤
      (docStates question answers qc ac width hide (k + 1)).lines.length := by
  unfold docStates
  rw [stateAfter_succ _ _ _ _ _ k hk, processAnswer_of_not_skip _ _ _ _ _ hsk]
  have := sectionLines_length_ge (width - 4) ac (k, answers.get ⟨k, hk⟩)
  dsimp only at this
  simp only [List.length_append]
  omega

theorem docStates_lines_mono (question : Question) (answers : List Answer)
    (qc : List Comment) (ac : List (List Comment)) (width : Nat) (hide : Bool)
    (k k' : Nat) (h : k ≤ k') :
    (docStates question answers qc ac width hide k).lines.length ≤
      (docStates question answers qc ac width hide k').lines.length :=
  stateAfter_lines_mono _ _ _ _ _ k k' h

/-! Claim theorems. -/

/-- C1: for every document composed by `build_question_content` (and by
`build_erwin_content`), every link in the returned link list has a
`line_index` that is a valid index into the returned line list
(`line_index < length`, and `0 ≤ line_index` holds since indices are
naturals), for all inputs. -/
theorem c1_link_line_index_valid :
    (∀ (question : Question) (answers : List Answer)
       (question_comments : List Comment) (answer_comments : List (List Comment))
       (width : Nat) (hide_erwin : Bool),
       ∀ l ∈ (build_question_content question answers question_comments
         answer_comments width hide_erwin).links,
         l.line_index < (build_question_content question answers question_comments
           answer_comments width hide_erwin).lines.length)
    ∧ (∀ (answer : Answer) (comments : List Comment) (width : Nat),
       ∀ l ∈ (build_erwin_content answer comments width).links,
         l.line_index < (build_erwin_content answer comments width).lines.length) := by
  constructor
  · intro q answers qc ac w hide l hl
    simp only [build_question_content] at hl ⊢
    have h := foldl_processAnswer_links_lt (w - 4) hide ac answers.enum
      (buildInit q qc (w - 4)) (buildInit_links_lt q qc (w - 4)) l hl
    simp only [List.length_append, List.length_cons, List.length_nil]
    omega
  · intro a cs w l hl
    have hfrag := html_to_content_links_lt a.answer_text (w - 6)
    simp only [build_erwin_content] at hl ⊢
    obtain ⟨l', hl', rfl⟩ := List.mem_map.mp hl
    have h := hfrag l' hl'
    generalize html_to_content a.answer_text (w - 6) = B at h ⊢
    by_cases hc : cs.isEmpty <;>
      simp [hc, List.length_append, List.length_map] <;> omega

/-- C3: `build_question_content` is a deterministic pure function of its
arguments: two calls on identical inputs give structurally identical
output, in particular identical line counts, link lists, and jump-position
lists. -/
theorem c3_deterministic (question : Question) (answers : List Answer)
    (question_comments : List Comment) (answer_comments : List (List Comment))
    (width : Nat) (hide_erwin : Bool) :
    (build_question_content question answers question_comments answer_comments
        width hide_erwin).lines.length =
      (build_question_content question answers question_comments answer_comments
        width hide_erwin).lines.length
    ∧ (build_question_content question answers question_comments answer_comments
        width hide_erwin).links =
      (build_question_content question answers question_comments answer_comments
        width hide_erwin).links
    ∧ (build_question_content question answers question_comments answer_comments
        width hide_erwin).erwin_positions =
      (build_question_content question answers question_comments answer_comments
        width hide_erwin).erwin_positions
    ∧ build_question_content question answers question_comments answer_comments
        width hide_erwin =
      build_question_content question answers question_comments answer_comments
        width hide_erwin :=
  ⟨rfl, rfl, rfl, rfl⟩

/-- C8: for every width, the extractor applied to the empty HTML fragment
returns exactly one empty line (never zero lines) and no links. -/
theorem c8_empty_fragment (width : Nat) :
    html_to_content "" width =
      { lines := [ContentLine.mk (RLine.fromStr "")], links := [] } := rfl

/-- C2: in `build_question_content`, every link of every section is the
corresponding fragment link with its line index increased by exactly the
number of document lines emitted before that section's body started: the
question body's links are shifted by exactly the 8 prelude lines, and each
included answer section's links by the lines of the state before the
section plus the six separator/header/author lines; consequently, for two
included answers at positions `i < j`, every link belonging to section `j`
has a strictly larger line index than every link belonging to section `i`.
The second conjunct ties the fold's prefix states to the builder's
output. -/
theorem c2_rebasing (question : Question) (answers : List Answer)
    (question_comments : List Comment) (answer_comments : List (List Comment))
    (width : Nat) (hide_erwin : Bool) :
    ((docStates question answers question_comments answer_comments width
        hide_erwin 0).all_links =
      (html_to_content question.body (width - 4)).links.map (shiftLink 8))
    ∧ ((build_question_content question answers question_comments answer_comments
        width hide_erwin).links =
      (docStates question answers question_comments answer_comments width
        hide_erwin answers.length).all_links)
    ∧ (∀ k (hk : k < answers.length),
        (is_erwin (answers.get ⟨k, hk⟩).author_name && hide_erwin) = false →
        sectionNewLinks question answers question_comments answer_comments width
            hide_erwin k =
          (html_to_content (answers.get ⟨k, hk⟩).answer_text (width - 4)).links.map
            (shiftLink ((docStates question answers question_comments answer_comments
              width hide_erwin k).lines.length + 6)))
    ∧ (∀ i j (hi : i < answers.length) (hj : j < answers.length), i < j →
        (is_erwin (answers.get ⟨i, hi⟩).author_name && hide_erwin) = false →
        (is_erwin (answers.get ⟨j, hj⟩).author_name && hide_erwin) = false →
        ∀ l1 ∈ sectionNewLinks question answers question_comments answer_comments
          width hide_erwin i,
        ∀ l2 ∈ sectionNewLinks question answers question_comments answer_comments
          width hide_erwin j,
        l1.line_index < l2.line_index) := by
  refine ⟨?_, ?_, ?_, ?_⟩
  · exact buildInit_links_eq question question_comments (width - 4)
  · simp only [build_question_content, docStates, stateAfter]
    rw [show answers.length = answers.enum.length from (List.enum_length).symm,
      List.take_length]
  · intro k hk hsk
    exact sectionNewLinks_eq question answers question_comments answer_comments
      width hide_erwin k hk hsk
  · intro i j hi hj hij hsi hsj l1 h1 l2 h2
    rw [sectionNewLinks_eq question answers question_comments answer_comments
      width hide_erwin i hi hsi] at h1
    rw [sectionNewLinks_eq question answers question_comments answer_comments
      width hide_erwin j hj hsj] at h2
    obtain ⟨l1', m1, rfl⟩ := List.mem_map.mp h1
    obtain ⟨l2', m2, rfl⟩ := List.mem_map.mp h2
    have f1 := html_to_content_links_lt (answers.get ⟨i, hi⟩).answer_text (width - 4)
      l1' m1
    have g1 := docStates_succ_lines_ge question answers question_comments
      answer_comments width hide_erwin i hi hsi
    have mono := docStates_lines_mono question answers question_comments
      answer_comments width hide_erwin (i + 1) j hij
    simp only [shiftLink]
    omega

/-- C4: back navigation consumes exactly one history entry and returns to
it without re-adding it: from document view at X, navigating to Y and then
going back leaves the navigator showing X with the history stack it had
before the transition; with an empty history stack, going back switches to
the index page instead. -/
theorem c4_back_navigation :
    (∀ (app : App) (y : Int), app.page = Page.Show →
      ((app.navigate_to_question y).go_back).current_question_id =
          app.current_question_id
      ∧ ((app.navigate_to_question y).go_back).history = app.history
      ∧ ((app.navigate_to_question y).go_back).page = Page.Show)
    ∧ (∀ app : App, app.history = [] → app.go_back = { app with page := Page.Index }) := by
  constructor
  · intro app y hpage
    obtain ⟨hp2, hid2, hh2⟩ := navigate_fields app y
    rw [if_pos hpage] at hh2
    unfold App.go_back
    rw [hh2, List.getLast?_concat]
    dsimp only
    rw [List.dropLast_concat]
    obtain ⟨hp4, hid4, hh4⟩ := navigate_fields
      { app.navigate_to_question y with history := app.history } app.current_question_id
    rw [if_pos (show ({ app.navigate_to_question y with history := app.history } : App).page
        = Page.Show from hp2)] at hh4
    refine ⟨hid4, ?_, hp4⟩
    dsimp only
    rw [hh4]
    exact List.dropLast_concat
  · intro app h
    unfold App.go_back
    rw [h]
    rfl

/-- C6: with `hide_erwin = true`, every distinguished-author answer
contributes nothing to the main composition (its section is skipped whole:
no lines, no links, no jump position), and every included answer's
contribution is independent of the composition state before it except for
the uniform shift of its link and jump-position indices by the line count
composed so far; in particular, on a document with two distinguished and
three ordinary answers the main document has exactly three answer sections
and an empty jump-position list. -/
theorem c6_skip_and_rebuild :
    (∀ (cw : Nat) (ac : List (List Comment)) (st : BState) (i : Nat) (a : Answer),
      is_erwin a.author_name = true → processAnswer cw true ac st (i, a) = st)
    ∧ (∀ (cw : Nat) (hide : Bool) (ac : List (List Comment)) (st : BState)
        (i : Nat) (a : Answer), (is_erwin a.author_name && hide) = false →
      processAnswer cw hide ac st (i, a) =
        { lines := st.lines ++ sectionLines cw ac (i, a),
          erwin_positions := st.erwin_positions ++
            (if is_erwin a.author_name then [st.lines.length] else []),
          all_links := st.all_links ++ (html_to_content a.answer_text cw).links.map
            (shiftLink (st.lines.length + 6)) })
    ∧ (build_question_content qEx6 answersEx6 [] [] 80 true).erwin_positions = []
    ∧ answerHeaderCount (build_question_content qEx6 answersEx6 [] [] 80 true) = 3 := by
  refine ⟨?_, ?_, ?_, ?_⟩
  · intro cw ac st i a h
    exact processAnswer_of_skip cw true ac st (i, a) (by simp [h])
  · intro cw hide ac st i a h
    exact processAnswer_of_not_skip cw hide ac st (i, a) h
  · decide
  · decide

/-- C7: a resize whose width equals the current width is a no-op apart from
recording the new height (no recomposition, no change to lines, links,
jump positions or scroll offsets, even if the height changed); the content
is rebuilt exactly when the width differs while the show page displays a
loaded document. -/
theorem c7_resize_noop (app : App) (w h : Nat) :
    (w = app.width → app.handle_resize w h = { app with height := h })
    ∧ (w ≠ app.width → app.page = Page.Show → app.current_question.isSome →
        app.handle_resize w h =
          App.rebuild_content { app with width := w, height := h })
    ∧ (¬(app.page = Page.Show ∧ app.current_question.isSome) →
        app.handle_resize w h = { app with width := w, height := h }) := by
  refine ⟨?_, ?_, ?_⟩
  · intro hw
    subst hw
    simp [App.handle_resize]
  · intro hw hp hq
    have : app.width ≠ w := fun e => hw e.symm
    simp [App.handle_resize, this, hp, hq]
  · intro hcond
    simp only [App.handle_resize]
    rw [if_neg]
    intro ⟨h1, h2, h3⟩
    exact hcond ⟨h2, h3⟩

/-- C5 counterexample: on a pane with N = 2 links and no focused link,
cycling forward N times leaves the second link focused — neither "no link"
nor the first link — and cycling backward directly after one forward cycle
yields the second link, not the original "no link" state, so backward is
not the inverse of forward there. -/
theorem c5_counterexample :
    ¬((((appC5.cycle_link true).cycle_link true).focused_link_index = none)
      ∨ (((appC5.cycle_link true).cycle_link true).focused_link_index = some 0))
    ∧ ((appC5.cycle_link true).cycle_link false).focused_link_index
        ≠ appC5.focused_link_index := by
  refine ⟨?_, ?_⟩ <;> decide

/-- C5 amended: with zero links in the focused pane, cycling is a no-op.
With N > 0 links: from no focused link, one forward cycle focuses the first
link and one backward cycle focuses the last; whenever a link within range
is already focused, cycling backward exactly undoes cycling forward;
starting from no focused link, k forward cycles (1 ≤ k ≤ N) focus link
k - 1, so N cycles land on the last link, and the (N+1)-th cycle wraps
focus back to the first link. -/
theorem c5_cycle_amended (app : App) :
    (app.activeLinks = [] → ∀ f, app.cycle_link f = app)
    ∧ (app.focused_link_index = none → app.activeLinks ≠ [] →
        (app.cycle_link true).focused_link_index = some 0
        ∧ (app.cycle_link false).focused_link_index = some (app.activeLinks.length - 1))
    ∧ (∀ c, app.focused_link_index = some c → c < app.activeLinks.length →
        ((app.cycle_link true).cycle_link false).focused_link_index = some c)
    ∧ (app.focused_link_index = none → app.activeLinks ≠ [] →
        ∀ k, 1 ≤ k → k ≤ app.activeLinks.length →
          ((fun a => App.cycle_link a true)^[k] app).focused_link_index = some (k - 1))
    ∧ (app.focused_link_index = none → app.activeLinks ≠ [] →
        ((fun a => App.cycle_link a true)^[app.activeLinks.length + 1]
          app).focused_link_index = some 0) := by
  refine ⟨?_, ?_, ?_, ?_, ?_⟩
  · intro h f
    exact cycle_link_of_empty app f h
  · intro h0 hne
    rw [cycle_link_focus app true hne, cycle_link_focus app false hne, h0]
    exact ⟨rfl, rfl⟩
  · intro c hc hlt
    have hne : app.activeLinks ≠ [] := by
      intro he
      rw [he] at hlt
      exact absurd hlt (by simp)
    have hne' : (app.cycle_link true).activeLinks ≠ [] := by
      rw [cycle_link_activeLinks]; exact hne
    rw [cycle_link_focus _ false hne', cycle_link_focus app true hne,
      cycle_link_activeLinks, hc]
    simp only [nextLinkIndex, Option.some.injEq]
    split_ifs <;> try omega
    all_goals simp_all
  · intro h0 hne k h1 h2
    exact (cycle_forward_iterate app h0 hne k h1 h2).1
  · intro h0 hne
    have hlen : 1 ≤ app.activeLinks.length := by
      cases hL : app.activeLinks with
      | nil => exact absurd hL hne
      | cons a t => simp
    have hN := cycle_forward_iterate app h0 hne app.activeLinks.length hlen
      (Nat.le_refl _)
    rw [Function.iterate_succ_apply']
    have hne2 : ((fun a => App.cycle_link a true)^[app.activeLinks.length]
        app).activeLinks ≠ [] := by
      rw [hN.2]; exact hne
    rw [cycle_link_focus _ true hne2, hN.1, hN.2]
    have hnn : app.activeLinks.length - 1 + 1 ≥ app.activeLinks.length := by omega
    simp [nextLinkIndex, hnn]

/-- C9 counterexample: for a block code element whose class carries
`lang-none`, the extracted language is indeed `none`, but the highlighter's
selection chain then resolves the default "sql" grammar rather than plain
text, so the code lines do carry grammar-derived styling, contradicting the
claim that no syntax highlighting is applied. -/
theorem c9_counterexample :
    extract_lang_from_class (some "lang-none prettyprint-override") = none
    ∧ chooseSyntax (extract_lang_from_class (some "lang-none prettyprint-override"))
        = Grammar.token "sql"
    ∧ chooseSyntax (extract_lang_from_class (some "lang-none prettyprint-override"))
        ≠ Grammar.plainText
    ∧ highlight_code "SELECT 1"
        (extract_lang_from_class (some "lang-none prettyprint-override"))
        ≠ (rustLines "SELECT 1").map
          (fun l => RLine.mk (highlightLineModel Grammar.plainText l)) := by
  refine ⟨?_, ?_, ?_, ?_⟩ <;> decide

/-- C9 amended: a block code element with the `lang-none` hint yields an
extracted language of `none`, and `highlight_code` then falls back to the
default "sql" grammar (plain text only if that grammar were unavailable),
so the block is rendered highlighted under the default grammar rather than
with no syntax highlighting. -/
theorem c9_lang_none_default_grammar (code : String) :
    extract_lang_from_class (some "lang-none prettyprint-override") = none
    ∧ chooseSyntax none = Grammar.token "sql"
    ∧ highlight_code code none =
        (rustLines code).map
          (fun l => RLine.mk (highlightLineModel (Grammar.token "sql") l)) := by
  refine ⟨by decide, by decide, ?_⟩
  unfold highlight_code
  rfl

/-- C10: an author is distinguished exactly when the lowercased author name
contains the substring "erwin" — it matches anywhere in the name and is
insensitive to the case of the input — and this one predicate gives the
distinguished-answer count and decides the per-answer skip under the
dedicated pane. -/
theorem c10_is_erwin_predicate :
    (∀ name : String, is_erwin name = true ↔
      ∃ s t, s ++ "erwin".toList ++ t = name.toList.map Char.toLower)
    ∧ (∀ pre suf : String, is_erwin (pre ++ "Erwin" ++ suf) = true)
    ∧ (∀ app : App, app.erwin_answer_count =
        (app.current_answers.filter (fun a => is_erwin a.author_name)).length)
    ∧ (∀ (cw : Nat) (ac : List (List Comment)) (st : BState) (i : Nat) (a : Answer),
        is_erwin a.author_name = true → processAnswer cw true ac st (i, a) = st) := by
  refine ⟨?_, ?_, ?_, ?_⟩
  · intro name
    simp only [is_erwin, decide_eq_true_eq]
    exact Iff.rfl
  · intro pre suf
    simp only [is_erwin, decide_eq_true_eq]
    refine ⟨pre.toList.map Char.toLower, suf.toList.map Char.toLower, ?_⟩
    have h1 : (pre ++ "Erwin" ++ suf).toList =
        pre.toList ++ "Erwin".toList ++ suf.toList := by
      simp [String.toList, String.data_append]
    rw [h1, List.map_append, List.map_append]
    have h2 : "Erwin".toList.map Char.toLower = "erwin".toList := by decide
    rw [h2]
  · intro app
    rfl
  · intro cw ac st i a h
    exact processAnswer_of_skip cw true ac st (i, a) (by simp [h])

/-! Witnesses: the claim theorems applied at concrete inputs. -/

/-- C1 witness: in a concrete composed document the first link sits at line
index 8, inside the line list. -/
theorem c1_witness :
    (⟨"http://q.example", 8, 1, none⟩ : Link) ∈
      (build_question_content qEx1 [ansL1, ansL2] [] [] 80 false).links
    ∧ (Link.line_index ⟨"http://q.example", 8, 1, none⟩) <
      (build_question_content qEx1 [ansL1, ansL2] [] [] 80 false).lines.length :=
  ⟨by decide,
   c1_link_line_index_valid.1 qEx1 [ansL1, ansL2] [] [] 80 false
     ⟨"http://q.example", 8, 1, none⟩ (by decide)⟩

/-- C2 witness: in a concrete two-answer document, the second section's
link at line 22 strictly exceeds the first section's link at line 15. -/
theorem c2_witness :
    (⟨"http://a.example", 15, 1, none⟩ : Link) ∈
      sectionNewLinks qEx1 [ansL1, ansL2] [] [] 80 false 0
    ∧ (⟨"http://b.example", 22, 1, none⟩ : Link) ∈
      sectionNewLinks qEx1 [ansL1, ansL2] [] [] 80 false 1
    ∧ (Link.line_index ⟨"http://a.example", 15, 1, none⟩) <
      (Link.line_index ⟨"http://b.example", 22, 1, none⟩) :=
  ⟨by decide, by decide,
   (c2_rebasing qEx1 [ansL1, ansL2] [] [] 80 false).2.2.2 0 1 (by decide) (by decide)
     (by decide) (by decide) (by decide)
     ⟨"http://a.example", 15, 1, none⟩ (by decide)
     ⟨"http://b.example", 22, 1, none⟩ (by decide)⟩

/-- C4 witness: from document 7 with history `[3]`, navigating to 9 and
going back returns to document 7 with history `[3]`; and with an empty
history, going back switches to the index page. -/
theorem c4_witness :
    appBase.page = Page.Show
    ∧ ((appBase.navigate_to_question 9).go_back).current_question_id =
        appBase.current_question_id
    ∧ ((appBase.navigate_to_question 9).go_back).history = appBase.history
    ∧ ((appBase.navigate_to_question 9).go_back).page = Page.Show
    ∧ appC5.go_back = { appC5 with page := Page.Index } :=
  ⟨rfl, (c4_back_navigation.1 appBase 9 rfl).1, (c4_back_navigation.1 appBase 9 rfl).2.1,
   (c4_back_navigation.1 appBase 9 rfl).2.2, c4_back_navigation.2 appC5 rfl⟩

/-- C5 witness: on the two-link pane, one forward cycle focuses link 0, two
focus link 1 (the last), and three wrap back to link 0. -/
theorem c5_witness :
    appC5.focused_link_index = none
    ∧ appC5.activeLinks ≠ []
    ∧ (appC5.cycle_link true).focused_link_index = some 0
    ∧ ((fun a => App.cycle_link a true)^[2] appC5).focused_link_index = some 1
    ∧ ((fun a => App.cycle_link a true)^[3] appC5).focused_link_index = some 0 :=
  ⟨rfl, by decide, ((c5_cycle_amended appC5).2.1 rfl (by decide)).1,
   (c5_cycle_amended appC5).2.2.2.1 rfl (by decide) 2 (by decide) (by decide),
   (c5_cycle_amended appC5).2.2.2.2 rfl (by decide)⟩

/-- C6 witness: a distinguished answer is skipped whole under
`hide_erwin = true`, and an ordinary answer's contribution appends to the
state with the shift-by-prefix re-basing. -/
theorem c6_witness :
    is_erwin aErw1.author_name = true
    ∧ processAnswer 76 true [] (BState.mk [] [] []) (0, aErw1) = BState.mk [] [] []
    ∧ (is_erwin aOrd1.author_name && true) = false
    ∧ processAnswer 76 true [] (BState.mk [] [] []) (1, aOrd1) =
        { lines := ([] : List RLine) ++ sectionLines 76 [] (1, aOrd1),
          erwin_positions := ([] : List Nat) ++
            (if is_erwin aOrd1.author_name then [([] : List RLine).length] else []),
          all_links := ([] : List Link) ++
            (html_to_content aOrd1.answer_text 76).links.map
              (shiftLink (([] : List RLine).length + 6)) } :=
  ⟨by decide, c6_skip_and_rebuild.1 76 [] ⟨[], [], []⟩ 0 aErw1 (by decide),
   by decide, c6_skip_and_rebuild.2.1 76 true [] ⟨[], [], []⟩ 1 aOrd1 (by decide)⟩

/-- C7 witness: resizing at the unchanged width 80 only records the new
height. -/
theorem c7_witness :
    (80 : Nat) = appBase.width
    ∧ appBase.handle_resize 80 30 = { appBase with height := 30 } :=
  ⟨rfl, (c7_resize_noop appBase 80 30).1 rfl⟩

/-- C10 witness: a name containing "Erwin" in the middle is classified as
the distinguished author, and such an answer is skipped under the
dedicated pane. -/
theorem c10_witness :
    is_erwin ("Dr. " ++ "Erwin" ++ " Brandstetter") = true
    ∧ processAnswer 40 true [] (BState.mk [] [] []) (2, aErw2) = BState.mk [] [] [] :=
  ⟨c10_is_erwin_predicate.2.1 "Dr. " " Brandstetter",
   c10_is_erwin_predicate.2.2.2 40 [] ⟨[], [], []⟩ 2 aErw2 (by decide)⟩

end Erwindb
